import Mathlib

/-!
# Verification of the Dynamo data-placement core

Shallow embedding of the parts of the Dynamo repository that the checked
claims are about, together with theorems settling each claim.

Sources embedded here:
* `lib/common/interface/webservice.py` — `RESTService.make_request` retry loop.
* `lib/common/interface/phedexdbsssb.py` — `make_replica_links` (group merge,
  unknown-group handling, query chunking) and `find_tape_copies`.
* `lib/detox/policy.py` — `Policy.evaluate` and `Policy.sort_deletion_candidates`.
* `lib/core/persistency/impl/mysqlstore.py` — incremental mutators
  (`save_block`, `save_file`, `save_blockreplica`, `save_datasetreplica`) and
  the replica-size reconstruction of `_load_replicas`.
* `lib/enforcer/interface.py` — the per-dataset request generation of
  `EnforcerInterface.report_back`.
-/

namespace Dynamo

/-! ## REST client retry loop (`webservice.py`, `RESTService.make_request`) -/

/-- One `(exception type, message)` pair, as recorded by
`exceptions.append(sys.exc_info()[:2])` for every failed attempt in
`RESTService.make_request`. -/
abbrev ExcInfo := String × String

/-- The retry loop of `RESTService.make_request` (webservice.py lines 95–137):
`exceptions = []; while len(exceptions) != num_attempts:` run one attempt; a
successful attempt returns its decoded body, a raising attempt appends its
exception info and continues.  When the loop exits normally
(`len(exceptions) == num_attempts`) the `while`-`else` branch raises, after
logging the accumulated exception list.  `attempts k` is the outcome of the
attempt made after `k` prior failures; `n` is the number of attempts still
allowed (`num_attempts - len(exceptions)`). -/
def makeRequestGo {E B : Type} (attempts : Nat → Except E B) : Nat → List E → Except (List E) B
  | 0, excs => Except.error excs
  | n + 1, excs =>
    match attempts excs.length with
    | Except.ok b => Except.ok b
    | Except.error e => makeRequestGo attempts n (excs ++ [e])

/-- `RESTService.make_request`, abstracted over the attempt outcomes: the body
construction and the I/O of an individual attempt are summarized by
`attempts`, everything after (retrying, accumulation of exception pairs,
the final failure) is the code's loop. -/
def makeRequest {E B : Type} (attempts : Nat → Except E B) (numAttempts : Nat) : Except (List E) B :=
  makeRequestGo attempts numAttempts []

theorem makeRequestGo_all_fail {E B : Type} (attempts : Nat → Except E B) (e : Nat → E) :
    ∀ (n : Nat) (excs : List E),
      (∀ j, j < n → attempts (excs.length + j) = Except.error (e (excs.length + j))) →
      makeRequestGo attempts n excs
        = Except.error (excs ++ (List.range n).map (fun j => e (excs.length + j))) := by
  intro n
  induction n with
  | zero =>
    intro excs _
    simp [makeRequestGo]
  | succ n ih =>
    intro excs h
    have h0 : attempts excs.length = Except.error (e excs.length) := by
      have := h 0 (Nat.succ_pos n)
      simpa using this
    have hrec := ih (excs ++ [e excs.length]) (by
      intro j hj
      have := h (j + 1) (by omega)
      simpa [Nat.add_assoc, Nat.add_comm, Nat.add_left_comm] using this)
    have hfun : (fun j => e (excs.length + 1 + j)) = fun j => e (excs.length + (j + 1)) := by
      funext j
      congr 1
      omega
    calc makeRequestGo attempts (n + 1) excs
        = makeRequestGo attempts n (excs ++ [e excs.length]) := by
          simp [makeRequestGo, h0]
      _ = Except.error ((excs ++ [e excs.length])
            ++ (List.range n).map (fun j => e ((excs ++ [e excs.length]).length + j))) := hrec
      _ = Except.error (excs ++ (List.range (n + 1)).map (fun j => e (excs.length + j))) := by
          congr 1
          simp only [List.length_append, List.length_cons, List.length_nil,
            List.range_succ_eq_map, List.map_cons, List.map_map, List.append_assoc,
            List.cons_append, List.nil_append, Nat.add_zero]
          congr 1
          simp [Function.comp, hfun]

theorem makeRequestGo_first_ok {E B : Type} (attempts : Nat → Except E B) (b : B) :
    ∀ (i n : Nat) (excs : List E), i < n →
      (∀ j, j < i → ∃ err, attempts (excs.length + j) = Except.error err) →
      attempts (excs.length + i) = Except.ok b →
      makeRequestGo attempts n excs = Except.ok b := by
  intro i
  induction i with
  | zero =>
    intro n excs hn _ hok
    obtain ⟨m, rfl⟩ : ∃ m, n = m + 1 := ⟨n - 1, by omega⟩
    simp only [Nat.add_zero] at hok
    simp [makeRequestGo, hok]
  | succ i ih =>
    intro n excs hn hfail hok
    obtain ⟨m, rfl⟩ : ∃ m, n = m + 1 := ⟨n - 1, by omega⟩
    obtain ⟨err, herr⟩ := hfail 0 (Nat.succ_pos i)
    simp only [Nat.add_zero] at herr
    have : makeRequestGo attempts (m + 1) excs = makeRequestGo attempts m (excs ++ [err]) := by
      simp [makeRequestGo, herr]
    rw [this]
    exact ih m (excs ++ [err]) (by omega)
      (fun j hj => by
        have := hfail (j + 1) (by omega)
        simpa [Nat.add_assoc, Nat.add_comm, Nat.add_left_comm] using this)
      (by simpa [Nat.add_assoc, Nat.add_comm, Nat.add_left_comm] using hok)

/-- C1: for every REST request the call is attempted up to `num_attempts`
times; when some attempt succeeds (all earlier ones having raised) its decoded
body is returned, and when all `num_attempts` attempts raise, the operation
fails carrying the sequence of (exception type, message) pairs, one entry per
failed attempt, in order. -/
theorem makeRequest_retry_spec {E B : Type} (attempts : Nat → Except E B) (numAttempts : Nat) :
    (∀ (e : Nat → E),
      (∀ j, j < numAttempts → attempts j = Except.error (e j)) →
      makeRequest attempts numAttempts = Except.error ((List.range numAttempts).map e))
    ∧ (∀ (i : Nat) (b : B), i < numAttempts →
        (∀ j, j < i → ∃ err, attempts j = Except.error err) →
        attempts i = Except.ok b →
        makeRequest attempts numAttempts = Except.ok b) := by
  constructor
  · intro e h
    have := makeRequestGo_all_fail attempts e numAttempts [] (by simpa using h)
    simpa [makeRequest] using this
  · intro i b hi hfail hok
    have := makeRequestGo_first_ok attempts b i numAttempts [] hi (by simpa using hfail)
      (by simpa using hok)
    simpa [makeRequest] using this

/-- Attempt outcomes of the spec's scenario "500, 500, 200": the first two
attempts raise, the third returns the final body. -/
def c1AttemptsRecover : Nat → Except ExcInfo String :=
  fun k => if k = 2 then Except.ok "final body" else Except.error ("HTTPError", "500")

/-- Attempt outcomes of the spec's scenario "500, 500, 500": every attempt
raises. -/
def c1AttemptsFail : Nat → Except ExcInfo String :=
  fun _ => Except.error ("HTTPError", "500")

/-- Witness for C1: with `num_attempts = 3`, the 500/500/200 scenario returns
the final body and the 500/500/500 scenario fails with three recorded
(exception type, message) pairs. -/
theorem makeRequest_retry_spec_witness :
    makeRequest c1AttemptsRecover 3 = Except.ok "final body"
    ∧ makeRequest c1AttemptsFail 3
        = Except.error ((List.range 3).map fun _ => (("HTTPError", "500") : ExcInfo)) := by
  constructor
  · exact (makeRequest_retry_spec c1AttemptsRecover 3).2 2 "final body" (by decide)
      (fun j hj => ⟨("HTTPError", "500"), by
        unfold c1AttemptsRecover
        rw [if_neg (by omega)]⟩)
      rfl
  · exact (makeRequest_retry_spec c1AttemptsFail 3).1 (fun _ => ("HTTPError", "500"))
      (fun j _ => rfl)

/-! ## Group recomputation after the replica-catalog merge
(`phedexdbsssb.py`, `make_replica_links` lines 580–596) -/

/-- The per-replica group merge loop at the end of `make_replica_links`
(lines 589–596):

```
for block_replica in replica.block_replicas:
    if replica.group is None:
        replica.group = block_replica.group
        continue
    if block_replica.group != replica.group:
        replica.group = None
        break
```

The accumulator is `replica.group`; the list holds the owners
(`block_replica.group`, null allowed) in iteration order. -/
def mergeGroup {α : Type} [DecidableEq α] : Option α → List (Option α) → Option α
  | acc, [] => acc
  | none, g :: rest => mergeGroup g rest
  | some a, g :: rest => if g = some a then mergeGroup (some a) rest else none

/-- Modelled from the spec: `common/dataformat.py` is not under `src/`.  Per
the spec's data model the `DatasetReplica.group` attribute is "(derived)", and
the replicas entering the merge loop are constructed in `make_replica_links`
without a group argument, so the group value entering the loop is null. -/
def initialReplicaGroup {α : Type} : Option α := none

/-- The group of a dataset replica as recomputed at the end of
`make_replica_links`, as a function of the sequence of its block replicas'
owners. -/
def recomputeGroup {α : Type} [DecidableEq α] (owners : List (Option α)) : Option α :=
  mergeGroup initialReplicaGroup owners

theorem mergeGroup_some_eq {α : Type} [DecidableEq α] (a g : α) (l : List (Option α)) :
    mergeGroup (some a) l = some g ↔ g = a ∧ ∀ x ∈ l, x = some a := by
  induction l with
  | nil =>
    constructor
    · intro h
      refine ⟨(Option.some.inj h).symm, ?_⟩
      intro x hx
      exact absurd hx (List.not_mem_nil x)
    · rintro ⟨rfl, -⟩
      rfl
  | cons x rest ih =>
    constructor
    · intro h
      by_cases hx : x = some a
      · subst hx
        rw [show mergeGroup (some a) (some a :: rest) = mergeGroup (some a) rest from by
          simp [mergeGroup]] at h
        obtain ⟨hg, hall⟩ := ih.1 h
        refine ⟨hg, ?_⟩
        intro y hy
        rcases List.mem_cons.1 hy with rfl | hy'
        · rfl
        · exact hall y hy'
      · exfalso
        rw [show mergeGroup (some a) (x :: rest) = none from by simp [mergeGroup, hx]] at h
        exact Option.noConfusion h
    · rintro ⟨hg, hall⟩
      have hx : x = some a := hall x (List.mem_cons_self x rest)
      have hrest : mergeGroup (some a) rest = some g :=
        ih.2 ⟨hg, fun y hy => hall y (List.mem_cons_of_mem _ hy)⟩
      rw [hx]
      simpa [mergeGroup] using hrest

/-- Counterexample to C2: a dataset replica whose block replicas are owned by
the null group and then by group `0` is recomputed to group `0`, although its
block replicas do not all share owner `0` — invariant 5 demands null there. -/
theorem recomputeGroup_null_then_group :
    recomputeGroup ([none, some 0] : List (Option Nat)) = some 0
    ∧ ¬ (∀ x ∈ ([none, some 0] : List (Option Nat)), x = some 0) := by
  constructor
  · rfl
  · intro h
    exact Option.noConfusion (h none (by simp))

/-- C2 (amended): after the merge, a dataset replica's recomputed group is the
non-null group `g` exactly when the sequence of its block replicas' owners is
a (possibly empty) run of null owners followed by a nonempty run of owners all
equal to `g`; in every other case (including an empty replica list, owners all
null, or two differing non-null owners) the recomputed group is null.  In
particular the code violates invariant 5 exactly on owner sequences of the
form nulls-then-`g`. -/
theorem recomputeGroup_characterization {α : Type} [DecidableEq α]
    (owners : List (Option α)) (g : α) :
    recomputeGroup owners = some g
    ↔ ∃ k m, 0 < m ∧ owners = List.replicate k none ++ List.replicate m (some g) := by
  induction owners with
  | nil =>
    simp only [recomputeGroup, initialReplicaGroup, mergeGroup]
    constructor
    · intro h
      exact Option.noConfusion h
    · rintro ⟨k, m, hm, heq⟩
      have := congrArg List.length heq
      simp at this
      omega
  | cons x rest ih =>
    cases x with
    | none =>
      have hstep : recomputeGroup (none :: rest) = recomputeGroup rest := rfl
      rw [hstep, ih]
      constructor
      · rintro ⟨k, m, hm, rfl⟩
        exact ⟨k + 1, m, hm, by simp [List.replicate_succ]⟩
      · rintro ⟨k, m, hm, heq⟩
        cases k with
        | zero =>
          exfalso
          cases m with
          | zero => omega
          | succ m => simp [List.replicate_succ] at heq
        | succ k =>
          refine ⟨k, m, hm, ?_⟩
          simpa [List.replicate_succ] using heq
    | some a =>
      have hstep : recomputeGroup (some a :: rest) = mergeGroup (some a) rest := rfl
      rw [hstep, mergeGroup_some_eq]
      constructor
      · rintro ⟨rfl, hall⟩
        refine ⟨0, rest.length + 1, by omega, ?_⟩
        simp only [List.replicate_succ, List.nil_append]
        congr 1
        exact List.eq_replicate_iff.2 ⟨rfl, hall⟩
      · rintro ⟨k, m, hm, heq⟩
        cases k with
        | zero =>
          cases m with
          | zero => omega
          | succ m =>
            rw [List.replicate_succ, List.replicate_zero, List.nil_append] at heq
            injection heq with h1 h2
            injection h1 with h3
            refine ⟨h3.symm, ?_⟩
            intro y hy
            rw [h2] at hy
            rw [h3]
            exact List.eq_of_mem_replicate hy
        | succ k =>
          exfalso
          simp [List.replicate_succ] at heq

/-! ## Unknown-group handling in `make_replica_links`
(`phedexdbsssb.py` lines 472–483) -/

/-- Handling of one remote replica entry's group in `make_replica_links`:

```
for replica_entry in block_entry['replica']:
    if replica_entry['group'] not in gname_list:
        continue
    if replica_entry['group'] is not None:
        try:
            group = groups[replica_entry['group']]
        except KeyError:
            logger.warning('Group %s ... not registered.', ...)
            group = None
    else:
        group = None
```

`entryGroup` is the remote entry's group field (JSON null allowed),
`gnameList` the `gname_list` argument of `exec_get` (the names of the local
groups matching the group filter; a list of strings, so a null entry group is
never a member), and `groupNames` the keys of the local `groups` map.  The
result is `none` when the entry is skipped (no `BlockReplica` constructed),
and `some g` when a `BlockReplica` is constructed with owner `g`. -/
def processReplicaEntry (gnameList groupNames : List String) (entryGroup : Option String) :
    Option (Option String) :=
  match entryGroup with
  | none => none
  | some g =>
    if g ∈ gnameList then
      some (if g ∈ groupNames then some g else none)
    else
      none

/-- Counterexample to C3: with the local group set `{g1}` (so
`gname_list = [g1]` under the default group filter), a remote block replica
owned by the unknown group `Unknown` is skipped by the
`replica_entry['group'] not in gname_list` guard — no `BlockReplica` is
created at all, rather than one with a null group and a warning. -/
theorem processReplicaEntry_unknown_group_dropped :
    "Unknown" ∉ ["g1"] ∧ processReplicaEntry ["g1"] ["g1"] (some "Unknown") = none := by
  constructor
  · decide
  · rfl

/-- C3 (amended): a block replica whose source group name is not in the
worker's group-name list is dropped from the merge (no `BlockReplica` is
created).  Since `make_replica_links` draws `gname_list` from the local group
map, a replica whose source group is unknown to the local group set is always
dropped; the record-with-null-group-and-warning path can only fire for a group
name that is in `gname_list` yet missing from the `groups` map. -/
theorem processReplicaEntry_spec (gnameList groupNames : List String) (g : String) :
    (gnameList ⊆ groupNames → g ∉ groupNames →
      processReplicaEntry gnameList groupNames (some g) = none)
    ∧ (g ∈ gnameList → g ∉ groupNames →
      processReplicaEntry gnameList groupNames (some g) = some none) := by
  constructor
  · intro hsub hg
    have hng : g ∉ gnameList := fun hmem => hg (hsub hmem)
    simp [processReplicaEntry, hng]
  · intro hmem hg
    simp [processReplicaEntry, hmem, hg]

/-- Witness for the amended C3: a concrete unknown group is dropped, and a
group name present in `gname_list` but absent from the group map takes the
null-group path. -/
theorem processReplicaEntry_spec_witness :
    processReplicaEntry ["g1"] ["g1", "g2"] (some "Unknown") = none
    ∧ processReplicaEntry ["g1", "stale"] ["g1"] (some "stale") = some none := by
  constructor
  · exact (processReplicaEntry_spec ["g1"] ["g1", "g2"] "Unknown").1 (by decide) (by decide)
  · exact (processReplicaEntry_spec ["g1", "stale"] ["g1"] "stale").2 (by decide) (by decide)

/-! ## Query chunking in `make_replica_links`
(`phedexdbsssb.py` lines 553–574) -/

/-- The literal alphabet of `make_replica_links`:
`characters = 'aAbBcCdDeEfFgGhHiIjJkKlLmMnNoOpPqQrRsStTuUvVwWxXyYzZ0123456789'`. -/
def charactersList : List Char :=
  "aAbBcCdDeEfFgGhHiIjJkKlLmMnNoOpPqQrRsStTuUvVwWxXyYzZ0123456789".toList

/-- Python `range(0, stop, step)` for `step ≥ 1`: the multiples of `step`
below `stop`, in order. -/
def pyRangeStep (stop step : Nat) : Nat → List Nat :=
  fun _ => (List.range ((stop + step - 1) / step)).map (· * step)

/-- `charsets = [characters[i:i + chunk_size] for i in range(0, 62, chunk_size)]`. -/
def pyCharsets (chunkSizeV : Nat) : List (List Char) :=
  (pyRangeStep 62 chunkSizeV 0).map (fun i => (charactersList.drop i).take chunkSizeV)

/-- `chunk_size = max(62 / int(total_quota / 100), 1)` (Python 2 integer
division, i.e. floor). -/
def chunkSize (totalQuota : Nat) : Nat := max (62 / (totalQuota / 100)) 1

/-- A site as seen by the chunking logic: `total_quota` is
`sum(site.group_quota.values())`. -/
structure SiteQ where
  name : String
  totalQuota : Nat
deriving DecidableEq

/-- One element of the `items` list handed to `parallel_exec(exec_get, ...)`:
the `(site_list, gname_list, dname_list)` triple. -/
structure QueryItem where
  sites : List SiteQ
  gnames : List String
  dnames : List String
deriving DecidableEq

/-- `'/%s*/*/*' % c` — the dataset-name pattern for first character `c`. -/
def datasetPattern (c : Char) : String := "/" ++ String.singleton c ++ "*/*/*"

/-- The per-site portion of the `items` construction (lines 559–570): a site
with `total_quota >= 500` is split into one query item per character chunk,
any other site queries as the single chunk `['/*/*/*']`. -/
def siteItems (gnameList : List String) (site : SiteQ) : List QueryItem :=
  if site.totalQuota ≥ 500 then
    (pyCharsets (chunkSize site.totalQuota)).map
      (fun charset => ⟨[site], gnameList, charset.map datasetPattern⟩)
  else
    [⟨[site], gnameList, ["/*/*/*"]⟩]

/-- The unrestricted-filter test of line 557:
`dataset_filt == '/*/*/*' or dataset_filt == '' or dataset_filt == '*'`. -/
def unrestrictedFilter (filt : String) : Bool :=
  filt == "/*/*/*" || filt == "" || filt == "*"

/-- The query plan of `make_replica_links` lines 557–574: for an unrestricted
dataset filter, the chunked `items` list run through
`parallel_exec(..., num_threads = min(64, len(items)))`; for a restricted
filter a single direct `exec_get(all_sites, gname_list, [dataset_filt])`
call. The second component is the worker count (1 for the direct call). -/
def replicaQueryPlan (allSites : List SiteQ) (gnameList : List String) (datasetFilt : String) :
    List QueryItem × Nat :=
  if unrestrictedFilter datasetFilt then
    let items := (allSites.map (siteItems gnameList)).flatten
    (items, min 64 items.length)
  else
    ([⟨allSites, gnameList, [datasetFilt]⟩], 1)

/-- Counterexample to C4: a site with `total_quota = 500` gets
`chunk_size = max(62 / 5, 1) = 12`, and its chunks have sizes
`12, 12, 12, 12, 12, 2` — the final chunk holds only the remaining 2
characters of the 62-character alphabet, not exactly 12. -/
theorem siteItems_last_chunk_short :
    chunkSize 500 = 12
    ∧ ((siteItems ["g1"] ⟨"T2_Example", 500⟩).map (fun it => it.dnames.length))
        = [12, 12, 12, 12, 12, 2] := by
  constructor
  · rfl
  · rfl

theorem pyCharsets_bounded_aux :
    ∀ cs : Fin 13, 0 < cs.val →
      ((pyCharsets cs.val).flatten = charactersList
        ∧ (∀ chunk ∈ (pyCharsets cs.val).dropLast, chunk.length = cs.val)
        ∧ (∀ chunk ∈ pyCharsets cs.val, 0 < chunk.length ∧ chunk.length ≤ cs.val)) := by
  decide

theorem chunkSize_pos (q : Nat) : 0 < chunkSize q :=
  lt_of_lt_of_le one_pos (le_max_right _ 1)

theorem chunkSize_le_twelve (q : Nat) (hq : 500 ≤ q) : chunkSize q ≤ 12 := by
  have h5 : 5 ≤ q / 100 := Nat.le_div_iff_mul_le (by omega) |>.2 (by omega)
  have hdiv : 62 / (q / 100) ≤ 62 / 5 := Nat.div_le_div_left h5 (by omega)
  have : (62 : Nat) / 5 = 12 := by decide
  unfold chunkSize
  omega

/-- C4 (amended): for an unrestricted dataset filter, a site with total quota
at least 500 is split into chunks drawn in order from the 62-character
alphabet `[a-zA-Z0-9]`, every chunk holding exactly
`max(62 / ⌊total_quota/100⌋, 1)` first-characters except the final chunk,
which holds the (nonempty, no larger) remainder when the chunk size does not
divide 62; the chunks concatenate back to the whole alphabet.  A lower-quota
site queries as the single chunk `['/*/*/*']`.  The chunks run through the
executor with worker count `min(64, num_chunks)`, and a restricted dataset
filter issues exactly one query. -/
theorem makeReplicaLinks_chunking_spec (gnameList : List String) :
    (∀ site : SiteQ, 500 ≤ site.totalQuota →
      ((pyCharsets (chunkSize site.totalQuota)).flatten = charactersList
        ∧ (∀ chunk ∈ (pyCharsets (chunkSize site.totalQuota)).dropLast,
            chunk.length = chunkSize site.totalQuota)
        ∧ (∀ chunk ∈ pyCharsets (chunkSize site.totalQuota),
            0 < chunk.length ∧ chunk.length ≤ chunkSize site.totalQuota)
        ∧ siteItems gnameList site
            = (pyCharsets (chunkSize site.totalQuota)).map
                (fun charset => ⟨[site], gnameList, charset.map datasetPattern⟩)))
    ∧ (∀ site : SiteQ, site.totalQuota < 500 →
        siteItems gnameList site = [⟨[site], gnameList, ["/*/*/*"]⟩])
    ∧ (∀ allSites datasetFilt, unrestrictedFilter datasetFilt = true →
        (replicaQueryPlan allSites gnameList datasetFilt).2
          = min 64 (replicaQueryPlan allSites gnameList datasetFilt).1.length)
    ∧ (∀ allSites datasetFilt, unrestrictedFilter datasetFilt = false →
        (replicaQueryPlan allSites gnameList datasetFilt).1.length = 1) := by
  refine ⟨?_, ?_, ?_, ?_⟩
  · intro site hq
    have hpos := chunkSize_pos site.totalQuota
    have hle := chunkSize_le_twelve site.totalQuota hq
    have haux := pyCharsets_bounded_aux ⟨chunkSize site.totalQuota, by omega⟩ hpos
    exact ⟨haux.1, haux.2.1, haux.2.2, by simp [siteItems, hq]⟩
  · intro site hq
    simp [siteItems, Nat.not_le.2 hq]
  · intro allSites datasetFilt hfilt
    simp [replicaQueryPlan, hfilt]
  · intro allSites datasetFilt hfilt
    simp [replicaQueryPlan, hfilt]

/-- Witness for the amended C4 at total quota 600 (chunk size 10): the chunks
partition the alphabet, the worker count equals `min(64, num_chunks)` for the
unrestricted filter, and a restricted filter issues exactly one query. -/
theorem makeReplicaLinks_chunking_spec_witness :
    (pyCharsets (chunkSize 600)).flatten = charactersList
    ∧ siteItems ["g1"] ⟨"T1_Example", 600⟩
        = (pyCharsets (chunkSize 600)).map
            (fun charset => ⟨[⟨"T1_Example", 600⟩], ["g1"], charset.map datasetPattern⟩)
    ∧ (replicaQueryPlan [⟨"T1_Example", 600⟩] ["g1"] "/*/*/*").2
        = min 64 (replicaQueryPlan [⟨"T1_Example", 600⟩] ["g1"] "/*/*/*").1.length
    ∧ (replicaQueryPlan [⟨"T1_Example", 600⟩] ["g1"] "/A/B/C").1.length = 1 := by
  have h := makeReplicaLinks_chunking_spec ["g1"]
  have h600 := h.1 ⟨"T1_Example", 600⟩ (by decide)
  exact ⟨h600.1, h600.2.2.2, h.2.2.1 [⟨"T1_Example", 600⟩] "/*/*/*" (by decide),
    h.2.2.2 [⟨"T1_Example", 600⟩] "/A/B/C" (by decide)⟩

/-! ## Tape-presence check (`phedexdbsssb.py`, `find_tape_copies` lines 634–691) -/

/-- Dataset status enumeration of the data model (`VALID | PRODUCTION |
UNKNOWN | INVALID | DEPRECATED | IGNORED`). -/
inductive DatasetStatus where
  | VALID
  | PRODUCTION
  | UNKNOWN
  | INVALID
  | DEPRECATED
  | IGNORED
deriving DecidableEq

/-- The fields of a dataset that `find_tape_copies` reads and writes. -/
structure TapeCheckDataset where
  onTape : Bool
  status : DatasetStatus
  blockNames : List String
deriving DecidableEq

/-- `a` is a subset of `b` as finite sets (`set(a) <= set(b)` in Python). -/
def listSubset (a b : List String) : Bool :=
  a.all (fun x => decide (x ∈ b))

/-- `set(a) == set(b)` in Python: mutual containment. -/
def listSetEq (a b : List String) : Bool :=
  listSubset a b && listSubset b a

/-- The per-dataset update of `find_tape_copies` (lines 681–691): datasets
already on tape or with status IGNORED are skipped; otherwise
`dataset.on_tape = (set of the dataset's block names == set of block names
found with complete custodial replicas at tape sites)`.  `found` is
`blocks_on_tape[dataset.name]` — a `defaultdict(list)`, so a dataset with no
tape blocks reads the empty list (the `except KeyError` branch is dead). -/
def updateOnTape (d : TapeCheckDataset) (found : List String) : Bool :=
  if d.onTape || d.status == DatasetStatus.IGNORED then
    d.onTape
  else
    listSetEq d.blockNames found

/-- Counterexample to C5: a considered dataset whose single block `b1` is
found on tape together with an extra block name `b2` has its block-name set a
subset of the found set, yet the code computes set equality and leaves
`on_tape = false`. -/
theorem updateOnTape_subset_not_sufficient :
    listSubset ["b1"] ["b1", "b2"] = true
    ∧ updateOnTape ⟨false, DatasetStatus.VALID, ["b1"]⟩ ["b1", "b2"] = false := by
  constructor
  · decide
  · decide

/-- C5 (amended): for every dataset considered by the tape-presence check
(`on_tape == false` and `status != IGNORED`), after the `blockreplicasummary`
queries complete, `dataset.on_tape` is set to true exactly when the set of
all of the dataset's block names is EQUAL (as a set) to the set of block
names found with complete custodial replicas at tape sites. -/
theorem updateOnTape_spec (d : TapeCheckDataset) (found : List String)
    (h1 : d.onTape = false) (h2 : d.status ≠ DatasetStatus.IGNORED) :
    updateOnTape d found = true ↔ (∀ x, x ∈ d.blockNames ↔ x ∈ found) := by
  have hstat : (d.status == DatasetStatus.IGNORED) = false := by
    simpa using h2
  unfold updateOnTape
  rw [h1, hstat]
  simp only [Bool.false_or, if_false, Bool.false_eq_true]
  unfold listSetEq listSubset
  simp only [Bool.and_eq_true, List.all_eq_true, decide_eq_true_eq]
  constructor
  · rintro ⟨hab, hba⟩ x
    exact ⟨fun hx => hab x hx, fun hx => hba x hx⟩
  · intro h
    exact ⟨fun x hx => (h x).1 hx, fun x hx => (h x).2 hx⟩

/-- Witness for the amended C5: a considered dataset whose blocks are exactly
the found blocks (in a different order, with a duplicate) is marked on tape. -/
theorem updateOnTape_spec_witness :
    updateOnTape ⟨false, DatasetStatus.VALID, ["b1", "b2"]⟩ ["b2", "b1", "b1"] = true
    ↔ (∀ x, x ∈ ["b1", "b2"] ↔ x ∈ ["b2", "b1", "b1"]) :=
  updateOnTape_spec ⟨false, DatasetStatus.VALID, ["b1", "b2"]⟩ ["b2", "b1", "b1"]
    rfl (by decide)

/-! ## Deletion-candidate ordering (`detox/policy.py`,
`Policy.sort_deletion_candidates` lines 58–63) -/

/-- A dataset replica as seen by the Detox sort: only the dataset name is
needed (the sort key reads `demands.dataset_demands[r.dataset]`, here
represented by a rank function over dataset names). -/
structure DetoxReplica where
  dataset : String
deriving DecidableEq

/-- Insertion step of a stable descending sort: the new element `x` (coming
later in the input) is placed after every already-placed element whose key is
greater than or equal to `key x`. -/
def insertDesc {a : Type} (key : a → Int) (x : a) : List a → List a
  | [] => [x]
  | y :: ys => if key y ≤ key x then x :: y :: ys else y :: insertDesc key x ys

/-- Python `sorted(l, key = key, reverse = True)`: the unique permutation of
`l` that is sorted by `key` descending and stable (elements with equal keys
keep their input order).  Python's sort is specified to be stable; this
insertion sort produces exactly that permutation. -/
def pySortedDesc {a : Type} (key : a → Int) : List a → List a
  | [] => []
  | x :: xs => insertDesc key x (pySortedDesc key xs)

/-- `Policy.sort_deletion_candidates`:
`sorted(replicas, key = lambda r: demands.dataset_demands[r.dataset].global_usage_rank, reverse = True)`. -/
def sortDeletionCandidates (globalUsageRank : String → Int) (replicas : List DetoxReplica) :
    List DetoxReplica :=
  pySortedDesc (fun r => globalUsageRank r.dataset) replicas

/-- Counterexample to C6: two candidates with equal rank and dataset names
`b`, `a` (in that input order) come out in input order `b, a`, not in
ascending name order `a, b` — the key is the rank alone and Python's sort is
stable, so there is no name tie-break. -/
theorem sortDeletionCandidates_no_name_tiebreak :
    sortDeletionCandidates (fun _ => 5) [⟨"b"⟩, ⟨"a"⟩] = [⟨"b"⟩, ⟨"a"⟩]
    ∧ [(⟨"b"⟩ : DetoxReplica), ⟨"a"⟩] ≠ [⟨"a"⟩, ⟨"b"⟩] := by
  constructor
  · rfl
  · decide

theorem insertDesc_perm {a : Type} (key : a → Int) (x : a) (l : List a) :
    List.Perm (insertDesc key x l) (x :: l) := by
  induction l with
  | nil => exact List.Perm.refl _
  | cons y ys ih =>
    by_cases h : key y ≤ key x
    · rw [insertDesc, if_pos h]
    · rw [insertDesc, if_neg h]
      exact (List.Perm.cons y ih).trans (List.Perm.swap x y ys)

theorem pySortedDesc_perm {a : Type} (key : a → Int) (l : List a) :
    List.Perm (pySortedDesc key l) l := by
  induction l with
  | nil => exact List.Perm.refl _
  | cons x xs ih => exact (insertDesc_perm key x _).trans (List.Perm.cons x ih)

theorem insertDesc_pairwise {a : Type} (key : a → Int) (x : a) (l : List a)
    (hl : l.Pairwise (fun p q => key q ≤ key p)) :
    (insertDesc key x l).Pairwise (fun p q => key q ≤ key p) := by
  induction l with
  | nil => simp [insertDesc]
  | cons y ys ih =>
    rcases List.pairwise_cons.1 hl with ⟨hy, hys⟩
    by_cases h : key y ≤ key x
    · rw [insertDesc, if_pos h]
      refine List.pairwise_cons.2 ⟨?_, hl⟩
      intro z hz
      rcases List.mem_cons.1 hz with rfl | hz'
      · exact h
      · exact le_trans (hy z hz') h
    · rw [insertDesc, if_neg h]
      refine List.pairwise_cons.2 ⟨?_, ih hys⟩
      intro z hz
      have hz' : z ∈ x :: ys := (insertDesc_perm key x ys).mem_iff.1 hz
      rcases List.mem_cons.1 hz' with rfl | hz''
      · exact le_of_not_le h
      · exact hy z hz''

theorem pySortedDesc_pairwise {a : Type} (key : a → Int) (l : List a) :
    (pySortedDesc key l).Pairwise (fun p q => key q ≤ key p) := by
  induction l with
  | nil => simp [pySortedDesc]
  | cons x xs ih => exact insertDesc_pairwise key x _ ih

theorem insertDesc_filter_eq {a : Type} (key : a → Int) (x : a) (l : List a) (r : Int) :
    (insertDesc key x l).filter (fun p => decide (key p = r))
      = (x :: l).filter (fun p => decide (key p = r)) := by
  induction l with
  | nil => rfl
  | cons y ys ih =>
    by_cases h : key y ≤ key x
    · rw [insertDesc, if_pos h]
    · rw [insertDesc, if_neg h]
      by_cases hx : key x = r
      · have hy : ¬ key y = r := fun hyr => h (by omega)
        simp [List.filter_cons, hx, hy, ih]
      · simp [List.filter_cons, hx, ih]

theorem pySortedDesc_stable {a : Type} (key : a → Int) (l : List a) (r : Int) :
    (pySortedDesc key l).filter (fun p => decide (key p = r))
      = l.filter (fun p => decide (key p = r)) := by
  induction l with
  | nil => rfl
  | cons x xs ih =>
    calc (pySortedDesc key (x :: xs)).filter (fun p => decide (key p = r))
        = ((x :: pySortedDesc key xs).filter (fun p => decide (key p = r))) :=
          insertDesc_filter_eq key x _ r
      _ = (x :: xs).filter (fun p => decide (key p = r)) := by
          simp only [List.filter_cons, ih]

/-- C6 (amended): `sort_deletion_candidates` returns a permutation of the
candidates ordered by `demand.global_usage_rank` descending; candidates with
equal rank keep their original input order (Python's `sorted` is stable and
the key is the rank alone) — dataset names play no part in tie-breaking. -/
theorem sortDeletionCandidates_spec (globalUsageRank : String → Int)
    (replicas : List DetoxReplica) :
    List.Perm (sortDeletionCandidates globalUsageRank replicas) replicas
    ∧ (sortDeletionCandidates globalUsageRank replicas).Pairwise
        (fun p q => globalUsageRank q.dataset ≤ globalUsageRank p.dataset)
    ∧ (∀ r : Int,
        (sortDeletionCandidates globalUsageRank replicas).filter
            (fun p => decide (globalUsageRank p.dataset = r))
          = replicas.filter (fun p => decide (globalUsageRank p.dataset = r))) :=
  ⟨pySortedDesc_perm _ replicas, pySortedDesc_pairwise _ replicas,
    fun r => pySortedDesc_stable _ replicas r⟩

/-! ## Rule-stack evaluation (`detox/policy.py`, `Policy.evaluate` lines 48–56) -/

/-- A Detox rule: a callable with `(replica, demand_manager)` arguments that
returns `None` or a `(replica, decision, reason)` triple.  Decisions are the
integers `DEC_DELETE, DEC_KEEP, DEC_PROTECT = range(1, 4)`. -/
abbrev DetoxRule (R D : Type) := R → D → Option (R × Nat × String)

/-- `Policy.evaluate`:

```
for rule in self.rules:
    result = rule(replica, demand_manager)
    if result is not None:
        break
else:
    return replica, self.default_decision, 'Policy default'
return result
```
-/
def policyEvaluate {R D : Type} (rules : List (DetoxRule R D)) (defaultDecision : Nat)
    (replica : R) (demandManager : D) : R × Nat × String :=
  match rules with
  | [] => (replica, defaultDecision, "Policy default")
  | rule :: rest =>
    match rule replica demandManager with
    | some result => result
    | none => policyEvaluate rest defaultDecision replica demandManager

/-- C7: `Policy.evaluate` returns the value of the first rule in order that
returns a non-null result — rules after it are never consulted, so the result
is independent of them — and when every rule returns null it returns
`(replica, default_decision, "Policy default")`. -/
theorem policyEvaluate_spec {R D : Type} (defaultDecision : Nat) (replica : R)
    (demandManager : D) :
    (∀ (pre post : List (DetoxRule R D)) (rule : DetoxRule R D) (v : R × Nat × String),
      (∀ p ∈ pre, p replica demandManager = none) →
      rule replica demandManager = some v →
      policyEvaluate (pre ++ rule :: post) defaultDecision replica demandManager = v)
    ∧ (∀ rules : List (DetoxRule R D),
        (∀ p ∈ rules, p replica demandManager = none) →
        policyEvaluate rules defaultDecision replica demandManager
          = (replica, defaultDecision, "Policy default")) := by
  constructor
  · intro pre post rule v hpre hrule
    induction pre with
    | nil => simp [policyEvaluate, hrule]
    | cons p ps ih =>
      have hp : p replica demandManager = none := hpre p (List.mem_cons_self p ps)
      have hps : ∀ q ∈ ps, q replica demandManager = none :=
        fun q hq => hpre q (List.mem_cons_of_mem p hq)
      simpa [policyEvaluate, hp] using ih hps
  · intro rules hall
    induction rules with
    | nil => rfl
    | cons p ps ih =>
      have hp : p replica demandManager = none := hall p (List.mem_cons_self p ps)
      have hps : ∀ q ∈ ps, q replica demandManager = none :=
        fun q hq => hall q (List.mem_cons_of_mem p hq)
      simpa [policyEvaluate, hp] using ih hps

/-- A concrete rule that matches nothing (always null). -/
def c7RuleNull : DetoxRule Nat Unit := fun _ _ => none

/-- A concrete rule that protects replica 7 with reason "locked". -/
def c7RuleProtect : DetoxRule Nat Unit :=
  fun replica _ => if replica = 7 then some (replica, 3, "locked") else none

/-- A later rule that would delete everything — never consulted when an
earlier rule fires. -/
def c7RuleDeleteAll : DetoxRule Nat Unit := fun replica _ => some (replica, 1, "delete all")

/-- Witness for C7: with rules `[null, protect-7, delete-all]` and default
decision `DEC_KEEP = 2`, replica 7 gets the protect rule's result (the
delete-all rule after it is not consulted), and with rules `[null]` replica 1
falls through to the policy default. -/
theorem policyEvaluate_spec_witness :
    policyEvaluate [c7RuleNull, c7RuleProtect, c7RuleDeleteAll] 2 7 () = (7, 3, "locked")
    ∧ policyEvaluate [c7RuleNull] 2 1 () = (1, 2, "Policy default") := by
  constructor
  · exact (policyEvaluate_spec 2 7 ()).1 [c7RuleNull] [c7RuleDeleteAll] c7RuleProtect
      (7, 3, "locked")
      (by
        intro p hp
        rcases List.mem_singleton.1 hp with rfl
        rfl)
      rfl
  · exact (policyEvaluate_spec 2 1 ()).2 [c7RuleNull]
      (by
        intro p hp
        rcases List.mem_singleton.1 hp with rfl
        rfl)

/-! ## Incremental store mutators (`mysqlstore.py`) -/

/-- Association-list upsert: MySQL
`INSERT ... ON DUPLICATE KEY UPDATE ...` (`_insert_update`) on a table keyed
by `k` — the existing row for `k` is overwritten in place, otherwise a new
row is appended. -/
def upsertRow {K V : Type} [DecidableEq K] (k : K) (v : V) : List (K × V) → List (K × V)
  | [] => [(k, v)]
  | (k', v') :: rest => if k' = k then (k, v) :: rest else (k', v') :: upsertRow k v rest

/-- Row lookup by key. -/
def lookupRow {K V : Type} [DecidableEq K] (k : K) : List (K × V) → Option V
  | [] => none
  | (k', v') :: rest => if k' = k then some v' else lookupRow k rest

/-- `DELETE FROM ... WHERE key = k`. -/
def deleteRow {K V : Type} [DecidableEq K] (k : K) (t : List (K × V)) : List (K × V) :=
  t.filter (fun kv => decide (kv.1 ≠ k))

/-- In-memory dataset as the mutators see it (`id == 0` means unsaved,
invariant 9). -/
structure DatasetE where
  id : Nat
  name : String
deriving DecidableEq

/-- In-memory block; `name` is `block.real_name()` (the external form used in
SQL). -/
structure BlockE where
  id : Nat
  dataset : DatasetE
  name : String
  size : Nat
  numFiles : Nat
  isOpen : Bool
  lastUpdate : Nat
deriving DecidableEq

/-- In-memory site (only the id is read by these mutators). -/
structure SiteE where
  id : Nat
  name : String
deriving DecidableEq

/-- In-memory group (only the id is read by these mutators). -/
structure GroupE where
  id : Nat
deriving DecidableEq

/-- In-memory file (`lfn` is the logical file name). -/
structure FileE where
  lfn : String
  block : BlockE
  size : Nat
deriving DecidableEq

/-- In-memory block replica. -/
structure BlockReplicaE where
  block : BlockE
  site : SiteE
  group : GroupE
  isComplete : Bool
  isCustodial : Bool
  size : Nat
  lastUpdate : Nat
deriving DecidableEq

/-- In-memory dataset replica (only ids are read by `save_datasetreplica`). -/
structure DatasetReplicaE where
  dataset : DatasetE
  site : SiteE
deriving DecidableEq

/-- A `blocks` table row (columns other than the key
`(dataset_id, name)`). -/
structure BlockRow where
  size : Nat
  numFiles : Nat
  isOpen : Bool
  lastUpdate : Nat
deriving DecidableEq

/-- A `files` table row (columns other than the key `name`). -/
structure FileRow where
  blockId : Nat
  datasetId : Nat
  size : Nat
deriving DecidableEq

/-- A `block_replicas` table row (columns other than the key
`(block_id, site_id)`). -/
structure BlockReplicaRow where
  groupId : Nat
  isComplete : Bool
  isCustodial : Bool
  lastUpdate : Nat
deriving DecidableEq

/-- The live tables touched by the incremental mutators under scrutiny. -/
structure DBState where
  blocks : List ((Nat × String) × BlockRow)
  files : List (String × FileRow)
  blockReplicas : List ((Nat × Nat) × BlockReplicaRow)
  blockReplicaSizes : List ((Nat × Nat) × Nat)
  datasetReplicas : List ((Nat × Nat) × Unit)
deriving DecidableEq

/-- One SQL statement issued against the live tables. -/
inductive DBQuery where
  | insertUpdate (table : String)
  | delete (table : String)
deriving DecidableEq

/-- `MySQLInventoryStore.save_block` (lines 570–580): no-op when the owning
dataset is unsaved (`dataset_id == 0`), otherwise one upsert into `blocks`. -/
def saveBlock (block : BlockE) (st : DBState) : DBState × List DBQuery :=
  if block.dataset.id = 0 then
    (st, [])
  else
    ({ st with blocks := (upsertRow (block.dataset.id, block.name)
        ⟨block.size, block.numFiles, block.isOpen, block.lastUpdate⟩ st.blocks) },
      [DBQuery.insertUpdate "blocks"])

/-- `MySQLInventoryStore.save_file` (lines 594–608): no-op when the owning
dataset or block is unsaved, otherwise one upsert into `files`. -/
def saveFile (lfile : FileE) (st : DBState) : DBState × List DBQuery :=
  if lfile.block.dataset.id = 0 then
    (st, [])
  else if lfile.block.id = 0 then
    (st, [])
  else
    ({ st with files := (upsertRow lfile.lfn
        ⟨lfile.block.id, lfile.block.dataset.id, lfile.size⟩ st.files) },
      [DBQuery.insertUpdate "files"])

/-- `MySQLInventoryStore.save_blockreplica` (lines 614–633): no-op when the
block or site is unsaved; otherwise upsert the `block_replicas` row, then
upsert the `block_replica_sizes` row when the replica size differs from the
block size and delete any such row when they are equal. -/
def saveBlockreplica (br : BlockReplicaE) (st : DBState) : DBState × List DBQuery :=
  if br.block.id = 0 then
    (st, [])
  else if br.site.id = 0 then
    (st, [])
  else
    let st1 := { st with blockReplicas := (upsertRow (br.block.id, br.site.id)
        ⟨br.group.id, br.isComplete, br.isCustodial, br.lastUpdate⟩ st.blockReplicas) }
    if br.size ≠ br.block.size then
      ({ st1 with blockReplicaSizes :=
          (upsertRow (br.block.id, br.site.id) br.size st1.blockReplicaSizes) },
        [DBQuery.insertUpdate "block_replicas", DBQuery.insertUpdate "block_replica_sizes"])
    else
      ({ st1 with blockReplicaSizes :=
          (deleteRow (br.block.id, br.site.id) st1.blockReplicaSizes) },
        [DBQuery.insertUpdate "block_replicas", DBQuery.delete "block_replica_sizes"])

/-- `MySQLInventoryStore.save_datasetreplica` (lines 694–704): no-op when the
dataset or site is unsaved, otherwise one upsert into `dataset_replicas`. -/
def saveDatasetreplica (dr : DatasetReplicaE) (st : DBState) : DBState × List DBQuery :=
  if dr.dataset.id = 0 then
    (st, [])
  else if dr.site.id = 0 then
    (st, [])
  else
    ({ st with datasetReplicas := upsertRow (dr.dataset.id, dr.site.id) () st.datasetReplicas },
      [DBQuery.insertUpdate "dataset_replicas"])

/-- `_load_replicas` line 390: the loaded block replica's size is
`block.size if b_size is None else b_size`, where `b_size` is the
left-joined `block_replica_sizes` value. -/
def loadedBlockReplicaSize (block : BlockE) (bSize : Option Nat) : Nat :=
  match bSize with
  | none => block.size
  | some s => s

theorem lookupRow_upsertRow_self {K V : Type} [DecidableEq K] (k : K) (v : V)
    (t : List (K × V)) : lookupRow k (upsertRow k v t) = some v := by
  induction t with
  | nil => simp [upsertRow, lookupRow]
  | cons kv rest ih =>
    rcases kv with ⟨k', v'⟩
    by_cases h : k' = k
    · simp [upsertRow, lookupRow, h]
    · simp only [upsertRow, lookupRow, if_neg h]
      exact ih

theorem lookupRow_deleteRow_self {K V : Type} [DecidableEq K] (k : K)
    (t : List (K × V)) : lookupRow k (deleteRow k t) = none := by
  induction t with
  | nil => rfl
  | cons kv rest ih =>
    rcases kv with ⟨k', v'⟩
    by_cases h : k' = k
    · rw [show deleteRow k ((k', v') :: rest) = deleteRow k rest from by
        simp [deleteRow, List.filter_cons, h]]
      exact ih
    · rw [show deleteRow k ((k', v') :: rest) = (k', v') :: deleteRow k rest from by
        simp [deleteRow, List.filter_cons, h]]
      simp only [lookupRow, if_neg h]
      exact ih

/-- C8: after `save_blockreplica` on a replica with saved block and site, the
`block_replica_sizes` row for `(block, site)` is present exactly when the
replica's size differs from its block's size, and reconstructing the size the
way `_load_replicas` does (stored value when a row exists, `block.size`
otherwise) recovers the replica's size. -/
theorem saveBlockreplica_size_row_spec (br : BlockReplicaE) (st : DBState)
    (hb : br.block.id ≠ 0) (hs : br.site.id ≠ 0) :
    ((lookupRow (br.block.id, br.site.id)
        (saveBlockreplica br st).1.blockReplicaSizes).isSome
      ↔ br.size ≠ br.block.size)
    ∧ loadedBlockReplicaSize br.block
        (lookupRow (br.block.id, br.site.id) (saveBlockreplica br st).1.blockReplicaSizes)
      = br.size
    ∧ (∀ (block : BlockE) (s : Nat),
        loadedBlockReplicaSize block none = block.size
        ∧ loadedBlockReplicaSize block (some s) = s) := by
  by_cases hsz : br.size = br.block.size
  · have hstate : (saveBlockreplica br st).1.blockReplicaSizes
        = deleteRow (br.block.id, br.site.id) st.blockReplicaSizes := by
      simp [saveBlockreplica, hb, hs, hsz]
    rw [hstate, lookupRow_deleteRow_self]
    refine ⟨by simp [hsz], by simp [loadedBlockReplicaSize, hsz], ?_⟩
    intro block s
    exact ⟨rfl, rfl⟩
  · have hstate : (saveBlockreplica br st).1.blockReplicaSizes
        = upsertRow (br.block.id, br.site.id) br.size st.blockReplicaSizes := by
      simp [saveBlockreplica, hb, hs, hsz]
    rw [hstate, lookupRow_upsertRow_self]
    refine ⟨by simp [hsz], rfl, ?_⟩
    intro block s
    exact ⟨rfl, rfl⟩

/-- Witness for C8: an incomplete replica (size 5 of a block of size 10)
leaves a `block_replica_sizes` row carrying 5; the load-side reconstruction
recovers 5. -/
theorem saveBlockreplica_size_row_spec_witness :
    ((lookupRow ((2 : Nat), (3 : Nat))
        (saveBlockreplica
          ⟨⟨2, ⟨1, "/D/E/F"⟩, "b1", 10, 1, false, 0⟩, ⟨3, "T2_X"⟩, ⟨4⟩, false, false, 5, 0⟩
          ⟨[], [], [], [], []⟩).1.blockReplicaSizes).isSome
      ↔ (5 : Nat) ≠ 10)
    ∧ loadedBlockReplicaSize ⟨2, ⟨1, "/D/E/F"⟩, "b1", 10, 1, false, 0⟩
        (lookupRow ((2 : Nat), (3 : Nat))
          (saveBlockreplica
            ⟨⟨2, ⟨1, "/D/E/F"⟩, "b1", 10, 1, false, 0⟩, ⟨3, "T2_X"⟩, ⟨4⟩, false, false, 5, 0⟩
            ⟨[], [], [], [], []⟩).1.blockReplicaSizes)
      = 5
    ∧ (∀ (block : BlockE) (s : Nat),
        loadedBlockReplicaSize block none = block.size
        ∧ loadedBlockReplicaSize block (some s) = s) :=
  saveBlockreplica_size_row_spec
    ⟨⟨2, ⟨1, "/D/E/F"⟩, "b1", 10, 1, false, 0⟩, ⟨3, "T2_X"⟩, ⟨4⟩, false, false, 5, 0⟩
    ⟨[], [], [], [], []⟩ (by decide) (by decide)

/-- A concrete nonempty store state for the C9 witness. -/
def c9State : DBState :=
  ⟨[((1, "b1"), ⟨10, 1, false, 0⟩)], [("/store/g", ⟨2, 1, 4⟩)],
    [((2, 3), ⟨4, true, false, 0⟩)], [((2, 3), 5)], [((1, 3), ())]⟩

/-- C9: every incremental store mutator invoked on an entity whose parent id
is 0 (unsaved parent) returns without issuing any database query and leaves
every table unchanged: `save_block` with `block.dataset.id == 0`, `save_file`
with a zero dataset or block id, `save_blockreplica` with a zero block or
site id, and `save_datasetreplica` with a zero dataset or site id. -/
theorem saveMutators_zero_id_noop (st : DBState) :
    (∀ block : BlockE, block.dataset.id = 0 → saveBlock block st = (st, []))
    ∧ (∀ lfile : FileE, lfile.block.dataset.id = 0 ∨ lfile.block.id = 0 →
        saveFile lfile st = (st, []))
    ∧ (∀ br : BlockReplicaE, br.block.id = 0 ∨ br.site.id = 0 →
        saveBlockreplica br st = (st, []))
    ∧ (∀ dr : DatasetReplicaE, dr.dataset.id = 0 ∨ dr.site.id = 0 →
        saveDatasetreplica dr st = (st, [])) := by
  refine ⟨?_, ?_, ?_, ?_⟩
  · intro block h
    simp [saveBlock, h]
  · rintro lfile (h | h)
    · simp [saveFile, h]
    · by_cases hd : lfile.block.dataset.id = 0
      · simp [saveFile, hd]
      · simp [saveFile, hd, h]
  · rintro br (h | h)
    · simp [saveBlockreplica, h]
    · by_cases hb : br.block.id = 0
      · simp [saveBlockreplica, hb]
      · simp [saveBlockreplica, hb, h]
  · rintro dr (h | h)
    · simp [saveDatasetreplica, h]
    · by_cases hd : dr.dataset.id = 0
      · simp [saveDatasetreplica, hd]
      · simp [saveDatasetreplica, hd, h]

/-- Witness for C9: on a nonempty store state, each of the four mutators is a
no-op for a concrete entity with the relevant id 0. -/
theorem saveMutators_zero_id_noop_witness :
    saveBlock ⟨7, ⟨0, "/D/E/F"⟩, "b1", 10, 1, false, 0⟩ c9State = (c9State, [])
    ∧ saveFile ⟨"/store/f", ⟨0, ⟨1, "/D/E/F"⟩, "b1", 10, 1, false, 0⟩, 4⟩ c9State
        = (c9State, [])
    ∧ saveBlockreplica ⟨⟨2, ⟨1, "/D/E/F"⟩, "b1", 10, 1, false, 0⟩, ⟨0, "T2_X"⟩, ⟨4⟩,
        false, false, 5, 0⟩ c9State = (c9State, [])
    ∧ saveDatasetreplica ⟨⟨1, "/D/E/F"⟩, ⟨0, "T2_X"⟩⟩ c9State = (c9State, []) :=
  ⟨(saveMutators_zero_id_noop c9State).1 ⟨7, ⟨0, "/D/E/F"⟩, "b1", 10, 1, false, 0⟩ rfl,
    (saveMutators_zero_id_noop c9State).2.1
      ⟨"/store/f", ⟨0, ⟨1, "/D/E/F"⟩, "b1", 10, 1, false, 0⟩, 4⟩ (Or.inr rfl),
    (saveMutators_zero_id_noop c9State).2.2.1
      ⟨⟨2, ⟨1, "/D/E/F"⟩, "b1", 10, 1, false, 0⟩, ⟨0, "T2_X"⟩, ⟨4⟩, false, false, 5, 0⟩
      (Or.inr rfl),
    (saveMutators_zero_id_noop c9State).2.2.2 ⟨⟨1, "/D/E/F"⟩, ⟨0, "T2_X"⟩⟩ (Or.inr rfl)⟩

/-! ## Enforcer request generation (`enforcer/interface.py`,
`EnforcerInterface.report_back` lines 80–82 and 137–174) -/

/-- The cap of lines 80–82:

```
target_num = rule.num_copies
if target_num > len(destination_sites):
    # This is never fulfilled - cap
    target_num = len(destination_sites)
```
-/
def cappedTargetNum (numCopies numDestSites : Nat) : Nat :=
  if numCopies > numDestSites then numDestSites else numCopies

/-- The request-site loop of lines 157–170, with sites identified by name:

```
request_sites = []
while num_complete + num_incomplete + len(request_sites) < target_num:
    if len(can_be_flipped) != 0:
        replica = can_be_flipped.pop()
        request_sites.append(replica.site)
        continue
    if len(site_candidates) == 0:
        break
    request_sites.append(site_candidates.pop())
```

`flip` holds the sites of the `can_be_flipped` replicas and `cand` the
shuffled `site_candidates` list; `.pop()` removes the last element.  The
fuel is `target_num - (num_complete + num_incomplete + len(request_sites))`,
which drops by one per appended site. -/
def buildRequestSites : Nat → List String → List String → List String
  | 0, _, _ => []
  | n + 1, flip, cand =>
    match flip.getLast? with
    | some site => site :: buildRequestSites n flip.dropLast cand
    | none =>
      match cand.getLast? with
      | none => []
      | some site => site :: buildRequestSites n flip cand.dropLast

/-- The per-dataset branch of lines 137–174 (write_rrds disabled): no request
when enough complete (or complete-plus-incomplete) destination replicas
exist, none when there is neither a candidate site nor a flippable replica,
otherwise the request-site loop. -/
def datasetRequestSites (numCopies numDestSites numComplete numIncomplete : Nat)
    (flip cand : List String) : List String :=
  let target := cappedTargetNum numCopies numDestSites
  if numComplete ≥ target then
    []
  else if numComplete + numIncomplete ≥ target then
    []
  else if cand.isEmpty && flip.isEmpty then
    []
  else
    buildRequestSites (target - (numComplete + numIncomplete)) flip cand

theorem buildRequestSites_length_le (n : Nat) :
    ∀ (flip cand : List String), (buildRequestSites n flip cand).length ≤ n := by
  induction n with
  | zero =>
    intro flip cand
    simp [buildRequestSites]
  | succ n ih =>
    intro flip cand
    rw [buildRequestSites]
    cases hf : flip.getLast? with
    | some site => simpa using ih flip.dropLast cand
    | none =>
      cases hc : cand.getLast? with
      | none => simp
      | some site => simpa using ih flip cand.dropLast

/-- C10: in `report_back`, the effective target is capped at the number of
sites matching the rule's destination conditions, so for every dataset the
number of emitted copy requests never exceeds the count of matching
destination sites. -/
theorem datasetRequestSites_le_destinations (numCopies numDestSites numComplete
    numIncomplete : Nat) (flip cand : List String) :
    (datasetRequestSites numCopies numDestSites numComplete numIncomplete flip cand).length
      ≤ numDestSites := by
  unfold datasetRequestSites cappedTargetNum
  by_cases hcap : numCopies > numDestSites
  · simp only [if_pos hcap]
    split
    · simp
    · split
      · simp
      · split
        · simp
        · exact le_trans (buildRequestSites_length_le _ flip cand) (by omega)
  · simp only [if_neg hcap]
    split
    · simp
    · split
      · simp
      · split
        · simp
        · exact le_trans (buildRequestSites_length_le _ flip cand) (by omega)

end Dynamo
